import Mathlib

/-!
Shallow embedding of the JMeter JTL parser and aggregation engine
(src/src/utils/jtlParser.ts) together with theorems settling the
specification claims about it.

Modelling conventions:
* JavaScript numbers holding epoch milliseconds / elapsed milliseconds are
  modelled as `Int` (values produced by parseInt are integers); values that
  may be `undefined` or `NaN` are modelled as `Option Int` with `none`
  standing for both absent and non-numeric.
* JavaScript truthiness of a numeric field (`record.timestamp` in a boolean
  position) is: defined and non-zero.  Truthiness of a string field is:
  defined and non-empty.
* Rational arithmetic (`ℚ`) models the floating-point arithmetic of the
  source; `Math.round x` is `⌊x + 1/2⌋` and the claims below are settled in
  this exact-arithmetic model.
* Rendering concerns (`toLocaleTimeString`, the final locale-string sort of
  chart points) are environment dependent and are not modelled; the chart
  bucket's `timestamp` field keeps the raw millisecond value
  `minTimestamp + bucketKey * bucketDuration` that feeds the renderer.
-/

/-- Model of the JS `Math.round`: round half toward positive infinity. -/
def jsRound (q : ℚ) : Int := ⌊q + 1/2⌋

/-- Record shape from the source interface `JTLRecord`.  Every field a
freshly built record might still be missing is an `Option`; after the
parser's defaulting step the six mandatory fields are always `some`.
Interface fields never read nor written by the parser logic
(`grpThreads`, `allThreads`, `filename`, `encoding`, `sampleCount`,
`errorCount`) are omitted. -/
structure JTLRecord where
  timestamp : Option Int
  elapsed : Option Int
  label : Option String
  responseCode : Option String
  success : Option Bool
  threadName : Option String
  failureMessage : Option String
  bytes : Option Int
  sentBytes : Option Int
  latency : Option Int
  url : Option String
deriving DecidableEq, Repr

/-- Record with no field set, the `{}` the row loop starts from. -/
def emptyRecord : JTLRecord :=
  { timestamp := none, elapsed := none, label := none, responseCode := none
    success := none, threadName := none, failureMessage := none
    bytes := none, sentBytes := none, latency := none, url := none }

/-- JS truthiness of an optional numeric field: defined and non-zero
(`undefined`, `NaN` and `0` are all falsy). -/
def truthyInt : Option Int → Bool
  | some t => t ≠ 0
  | none => false

/-- JS truthiness of an optional string field: defined and non-empty. -/
def truthyStr : Option String → Bool
  | some s => s ≠ ""
  | none => false

/-- Model of JS String.prototype.trim on a character list: drop whitespace
from both ends. -/
def trimList (cs : List Char) : List Char :=
  ((cs.dropWhile Char.isWhitespace).reverse.dropWhile Char.isWhitespace).reverse

/-- Model of JS String.prototype.trim. -/
def trimS (s : String) : String := String.mk (trimList s.toList)

/-- Model of JS String.prototype.toLowerCase (ASCII, the range header names
and success literals live in). -/
def lowerS (s : String) : String := String.mk (s.toList.map Char.toLower)

/-- Split a character list on a separator character, the behaviour of JS
String.prototype.split with a one-character separator: the empty input
yields one empty piece and a trailing separator yields a trailing empty
piece. -/
def splitChar (sep : Char) : List Char → List (List Char)
  | [] => [[]]
  | x :: xs =>
    match splitChar sep xs with
    | [] => [[]]
    | h :: t => if x = sep then [] :: h :: t else (x :: h) :: t

/-- Lines of the input file: content.trim().split of the source. -/
def fileLines (content : String) : List String :=
  (splitChar '\n' (trimList content.toList)).map String.mk

/-- Decimal digit value of a character. -/
def digitVal (c : Char) : Nat := c.toNat - 48

/-- Hexadecimal digit test (for the 0x form accepted by JS parseInt). -/
def isHexDigit (c : Char) : Bool :=
  c.isDigit || ('a' ≤ c && c ≤ 'f') || ('A' ≤ c && c ≤ 'F')

/-- Hexadecimal digit value of a character. -/
def hexVal (c : Char) : Nat :=
  if c.isDigit then c.toNat - 48
  else if 'a' ≤ c && c ≤ 'f' then c.toNat - 87
  else c.toNat - 55

/-- Model of JS `parseInt(value)` with no radix argument: skip leading
whitespace, optional sign, then either a 0x/0X hexadecimal literal or a
maximal run of decimal digits; `none` models the `NaN` result when no
digit follows. -/
def parseIntJS (s : String) : Option Int :=
  let cs := s.toList.dropWhile Char.isWhitespace
  let signed : Int × List Char :=
    match cs with
    | '-' :: rest => (-1, rest)
    | '+' :: rest => (1, rest)
    | _ => (1, cs)
  match signed.2 with
  | '0' :: 'x' :: rest =>
    let ds := rest.takeWhile isHexDigit
    if ds = [] then none
    else some (signed.1 * ((ds.foldl (fun a c => a * 16 + hexVal c) 0 : Nat) : Int))
  | '0' :: 'X' :: rest =>
    let ds := rest.takeWhile isHexDigit
    if ds = [] then none
    else some (signed.1 * ((ds.foldl (fun a c => a * 16 + hexVal c) 0 : Nat) : Int))
  | other =>
    let ds := other.takeWhile Char.isDigit
    if ds = [] then none
    else some (signed.1 * ((ds.foldl (fun a c => a * 10 + digitVal c) 0 : Nat) : Int))

namespace JTLParser

/-- Model of the field post-processing regex replace of /^"|"$/g : strip one
leading and one trailing double quote. -/
def stripQuotesList (cs : List Char) : List Char :=
  let s₁ := match cs with
    | '"' :: rest => rest
    | _ => cs
  match s₁.getLast? with
  | some '"' => s₁.dropLast
  | _ => s₁

/-- String form of `stripQuotesList`, applied to every finished field. -/
def stripQuotes (s : String) : String := String.mk (stripQuotesList s.toList)

/-- Character loop of `parseRow`: walk the line with the quote state machine,
carrying the previous original character (the JS code tests
line[i-1] === delimiter), the current field, the inQuotes flag and the
fields pushed so far (each pushed field is trimmed at push time). -/
def parseRowAux (delimiter : Char) :
    List Char → Option Char → List Char → Bool → List String → List String
  | [], _, current, _, fields => fields ++ [String.mk (trimList current)]
  | c :: rest, prev, current, inQuotes, fields =>
    if c = '"' ∧ (prev = none ∨ prev = some delimiter ∨ inQuotes = true) then
      parseRowAux delimiter rest (some c) current (!inQuotes) fields
    else if c = delimiter ∧ inQuotes = false then
      parseRowAux delimiter rest (some c) [] inQuotes
        (fields ++ [String.mk (trimList current)])
    else
      parseRowAux delimiter rest (some c) (current ++ [c]) inQuotes fields

/-- Model of `JTLParser.parseRow`: quote-aware split of a line on the
delimiter, every field trimmed and stripped of one pair of wrapping
quotes. -/
def parseRow (line : String) (delimiter : Char) : List String :=
  (parseRowAux delimiter line.toList none [] false []).map stripQuotes

/-- Delimiter candidates tried by `detectDelimiter`, in source order. -/
def delimiterCandidates : List Char := ['\t', ',', ';', '|']

/-- One step of the detection loop: keep the candidate if it splits the line
into strictly more fields than the best so far. -/
def detectStep (line : String) (best : Char × Nat) (delimiter : Char) : Char × Nat :=
  let fields := parseRow line delimiter
  if fields.length > best.2 then (delimiter, fields.length) else best

/-- Model of `JTLParser.detectDelimiter`: try tab, comma, semicolon, pipe in
that order and return the one yielding the most fields (strict greater-than,
so earlier candidates win ties); the loop starts from tab with count 0. -/
def detectDelimiter (line : String) : Char :=
  (delimiterCandidates.foldl (detectStep line) ('\t', 0)).1

/-- Model of the header normalization in `mapFieldToRecord`: lower-case then
strip every character outside [a-z0-9]. -/
def normalizeHeader (header : String) : String :=
  String.mk ((header.toList.map Char.toLower).filter (fun c => c.isLower || c.isDigit))

/-- Model of `JTLParser.mapFieldToRecord`: dispatch on the normalized header
through the synonym table and set at most one canonical field.  An
unparsable `timestamp`/`elapsed` leaves the field untouched; unparsable
`bytes`/`sentBytes`/`latency` become 0 (the JS parseInt(value) || 0). -/
def mapFieldToRecord (header value : String) (record : JTLRecord) : JTLRecord :=
  let h := normalizeHeader header
  if h = "timestamp" ∨ h = "timstamp" ∨ h = "time" then
    match parseIntJS value with
    | some t => { record with timestamp := some t }
    | none => record
  else if h = "elapsed" ∨ h = "responsetime" ∨ h = "rt" then
    match parseIntJS value with
    | some e => { record with elapsed := some e }
    | none => record
  else if h = "label" ∨ h = "sampler" ∨ h = "name" then
    { record with label := some value }
  else if h = "responsecode" ∨ h = "responsemessage" ∨ h = "code" ∨ h = "status" then
    { record with responseCode := some value }
  else if h = "success" ∨ h = "result" then
    { record with success := some (lowerS value == "true" || value == "1") }
  else if h = "threadname" ∨ h = "thread" then
    { record with threadName := some value }
  else if h = "failuremessage" ∨ h = "error" then
    { record with failureMessage := some value }
  else if h = "bytes" ∨ h = "size" then
    { record with bytes := some ((parseIntJS value).getD 0) }
  else if h = "sentbytes" ∨ h = "requestsize" then
    { record with sentBytes := some ((parseIntJS value).getD 0) }
  else if h = "latency" then
    { record with latency := some ((parseIntJS value).getD 0) }
  else if h = "url" then
    { record with url := some value }
  else record

/-- Field-mapping loop of the row handler: for each header at position
index, skip when the row has no such cell or the trimmed cell is empty
(falsy), otherwise dispatch through `mapFieldToRecord`. -/
def buildRecord (headers values : List String) : JTLRecord :=
  headers.enum.foldl
    (fun record iv =>
      if iv.1 ≥ values.length then record
      else
        let value := trimS (values.getD iv.1 "")
        if value = "" then record
        else mapFieldToRecord iv.2 value record)
    emptyRecord

/-- Time-field defaulting of an accepted row: a falsy timestamp (unset or
zero) with an elapsed present becomes the synthetic timestamp
Date.now() − n × 1000; a missing elapsed with a then-truthy timestamp
defaults to 100. -/
def fillTime (now : Int) (n : Nat) (record : JTLRecord) : JTLRecord :=
  let r₁ := if !truthyInt record.timestamp && record.elapsed.isSome then
      { record with timestamp := some (now - (n : Int) * 1000) } else record
  if r₁.elapsed.isNone && truthyInt r₁.timestamp then
    { r₁ with elapsed := some 100 } else r₁

/-- Remaining defaulting of an accepted row: label "Unknown", responseCode
"200", success true and the placeholder thread name, each only when the
field is still falsy/unset. -/
def fillDefaults (record : JTLRecord) : JTLRecord :=
  let r₃ := if !truthyStr record.label then
      { record with label := some "Unknown" } else record
  let r₄ := if !truthyStr r₃.responseCode then
      { r₃ with responseCode := some "200" } else r₃
  let r₅ := if r₄.success.isNone then { r₄ with success := some true } else r₄
  if !truthyStr r₅.threadName then
    { r₅ with threadName := some "Thread Group 1-1" } else r₅

/-- Validation and defaulting applied to a freshly mapped record, given the
wall-clock `now` and the number `n` of records already accepted (used by the
synthetic timestamp `Date.now() - n * 1000`).  Returns `none` when the row
is rejected.  Mirrors the body of the acceptance branch in `parseFile`:
the timestamp test is JS-truthy, so a parsed timestamp of 0 does not count
as time data and is replaced by a synthetic one when elapsed is present. -/
def validateAndDefault (now : Int) (n : Nat) (record : JTLRecord) : Option JTLRecord :=
  let hasTimeData := truthyInt record.timestamp || record.elapsed.isSome
  let hasLabel := truthyStr record.label
  let hasResponseData := truthyStr record.responseCode || record.success.isSome
  if hasTimeData && (hasLabel || hasResponseData) then
    some (fillDefaults (fillTime now n record))
  else
    none

/-- Handling of one data line of the file: skip blank lines, split on the
detected delimiter, require at least min(headerCount, 3) cells, then map,
validate and default.  `none` covers skipped, truncated and rejected rows
alike (they differ only in diagnostic counters). -/
def processRow (headers : List String) (delimiter : Char) (now : Int) (n : Nat)
    (line : String) : Option JTLRecord :=
  let l := trimS line
  if l = "" then none
  else
    let values := parseRow l delimiter
    if values.length ≥ min headers.length 3 then
      validateAndDefault now n (buildRecord headers values)
    else none

/-- Outcome of `parseFile`, the `ParseResult` interface with its debugInfo
fields flattened in (the sample record equals the first accepted record). -/
structure ParseResult where
  success : Bool
  records : List JTLRecord
  error : Option String
  totalLines : Nat
  headerLine : String
  detectedHeaders : List String
  detectedDelimiter : Option Char
  parsedRecords : Nat
  validRecords : Nat
  sampleRecord : Option JTLRecord
deriving DecidableEq, Repr

/-- State threaded through the data-line loop of `parseFile`: accepted
records so far and the parsedRecords counter (incremented for every
non-blank line). -/
def parseLineStep (headers : List String) (delimiter : Char) (now : Int)
    (st : List JTLRecord × Nat) (line : String) : List JTLRecord × Nat :=
  if trimS line = "" then st
  else
    match processRow headers delimiter now st.1.length line with
    | some r => (st.1 ++ [r], st.2 + 1)
    | none => (st.1, st.2 + 1)

/-- Model of `JTLParser.parseFile`.  `now` is the wall-clock value read by
Date.now() for synthetic timestamps (a parameter of the model, making the
source's nondeterminism explicit).  The input is trimmed and split on
newlines; fewer than 2 lines is the structural failure; otherwise the
delimiter and headers come from the first line and every further line runs
through `processRow`; success requires at least one accepted record. -/
def parseFile (now : Int) (content : String) : ParseResult :=
  let lines := fileLines content
  if lines.length < 2 then
    { success := false
      records := []
      error := some "File must contain at least a header and one data row"
      totalLines := lines.length
      headerLine := lines.getD 0 ""
      detectedHeaders := []
      detectedDelimiter := none
      parsedRecords := 0
      validRecords := 0
      sampleRecord := none }
  else
    let headerLine := lines.getD 0 ""
    let delimiter := detectDelimiter headerLine
    let headers := parseRow headerLine delimiter
    let st := (lines.drop 1).foldl (parseLineStep headers delimiter now) ([], 0)
    { success := st.1.length > 0
      records := st.1
      error := if st.1.length = 0 then
          some "No valid records found. Check file format and required fields."
        else none
      totalLines := lines.length
      headerLine := headerLine
      detectedHeaders := headers
      detectedDelimiter := some delimiter
      parsedRecords := st.2
      validRecords := st.1.length
      sampleRecord := st.1.head? }

/-- Minimum of a list of integers (Math.min over a spread array; every use
site guards for non-emptiness, the empty default 0 is never observed). -/
def listMin : List Int → Int
  | [] => 0
  | x :: xs => xs.foldl min x

/-- Maximum of a list of integers, same conventions as `listMin`. -/
def listMax : List Int → Int
  | [] => 0
  | x :: xs => xs.foldl max x

/-- Sum of a list of integers (the reduce((sum, t) => sum + t, 0) idiom). -/
def sumInt (l : List Int) : Int := l.foldl (· + ·) 0

/-- Model of Math.round(q * 100) / 100, the 2-decimal rounding idiom. -/
def round2 (q : ℚ) : ℚ := (jsRound (q * 100) : ℚ) / 100

/-- Model of `JTLParser.calculatePercentile`: nearest-rank percentile over an
already sorted array; p ≤ 0 gives the first element, p ≥ 100 the last, and
otherwise the element at ceil(p/100 × n) − 1 clamped into [0, n−1]. -/
def calculatePercentile (sortedArray : List Int) (percentile : ℚ) : Int :=
  if sortedArray.length = 0 then 0
  else if percentile ≤ 0 then sortedArray.getD 0 0
  else if percentile ≥ 100 then sortedArray.getD (sortedArray.length - 1) 0
  else
    let index : Int := ⌈percentile / 100 * sortedArray.length⌉ - 1
    let safeIndex : Int := max 0 (min index ((sortedArray.length : Int) - 1))
    sortedArray.getD safeIndex.toNat 0

/-- Snapshot shape from the source interface `PerformanceMetrics`; fields
the source rounds to whole numbers are `Int`, percentages and durations
are `ℚ`, request counters are `Nat`. -/
structure PerformanceMetrics where
  avgResponseTime : Int
  maxResponseTime : Int
  minResponseTime : Int
  throughput : ℚ
  errorRate : ℚ
  totalRequests : Nat
  successfulRequests : Nat
  failedRequests : Nat
  p90ResponseTime : Int
  p95ResponseTime : Int
  p99ResponseTime : Int
  transactionsPerSecond : ℚ
  testDuration : ℚ
  avgConnectTime : Int
  avgLatency : Int
deriving DecidableEq, Repr

/-- All-zero metrics object returned for an empty record collection. -/
def zeroMetrics : PerformanceMetrics :=
  { avgResponseTime := 0, maxResponseTime := 0, minResponseTime := 0
    throughput := 0, errorRate := 0, totalRequests := 0
    successfulRequests := 0, failedRequests := 0
    p90ResponseTime := 0, p95ResponseTime := 0, p99ResponseTime := 0
    transactionsPerSecond := 0, testDuration := 0
    avgConnectTime := 0, avgLatency := 0 }

/-- Elapsed values kept by the metrics filter: defined, numeric and
non-negative (undefined and NaN are `none` in the model). -/
def validResponseTimes (records : List JTLRecord) : List Int :=
  records.filterMap (fun r =>
    match r.elapsed with
    | some e => if 0 ≤ e then some e else none
    | none => none)

/-- Timestamps kept by the duration filter: defined, numeric and strictly
positive. -/
def validTimestamps (records : List JTLRecord) : List Int :=
  records.filterMap (fun r =>
    match r.timestamp with
    | some t => if 0 < t then some t else none
    | none => none)

/-- Model of `JTLParser.calculateMetrics`.  The try/catch of the source can
only fire on host-environment faults (never in this arithmetic model), so
the catch branch is unreachable here and is not represented.  The
latency-or-zero maps model r.latency || 0 (identical to getD 0 since a
stored 0 maps to 0 either way). -/
def calculateMetrics (records : List JTLRecord) : PerformanceMetrics :=
  if records.length = 0 then zeroMetrics
  else
    let responseTimes := validResponseTimes records
    if responseTimes.length = 0 then
      { zeroMetrics with
          errorRate := 100
          totalRequests := records.length
          failedRequests := records.length }
    else
      let successfulRequests := records.countP (fun r => r.success == some true)
      let failedRequests := records.length - successfulRequests
      let sorted := responseTimes.mergeSort (fun a b => decide (a ≤ b))
      let timestamps := validTimestamps records
      let testDuration : ℚ :=
        if timestamps.length > 1 then
          ((listMax timestamps - listMin timestamps : Int) : ℚ) / 1000
        else 1
      let connectTimes := (records.map (fun r => r.latency.getD 0)).filter (fun t => 0 ≤ t)
      let latencies := (records.map (fun r => r.latency.getD 0)).filter (fun t => 0 ≤ t)
      let rawRate : ℚ := if testDuration > 0 then (records.length : ℚ) / testDuration else 0
      { avgResponseTime := jsRound ((sumInt responseTimes : ℚ) / responseTimes.length)
        maxResponseTime := listMax responseTimes
        minResponseTime := listMin responseTimes
        throughput := round2 rawRate
        errorRate := round2 ((failedRequests : ℚ) / records.length * 100)
        totalRequests := records.length
        successfulRequests := successfulRequests
        failedRequests := failedRequests
        p90ResponseTime := calculatePercentile sorted 90
        p95ResponseTime := calculatePercentile sorted 95
        p99ResponseTime := calculatePercentile sorted 99
        transactionsPerSecond := round2 rawRate
        testDuration := round2 testDuration
        avgConnectTime :=
          if connectTimes.length > 0 then
            jsRound ((sumInt connectTimes : ℚ) / connectTimes.length)
          else 0
        avgLatency :=
          if latencies.length > 0 then
            jsRound ((sumInt latencies : ℚ) / latencies.length)
          else 0 }

/-- Bucket shape from the source interface `ChartDataPoint`; the rendered
time label is kept as the raw millisecond value handed to the renderer. -/
structure ChartDataPoint where
  timestamp : ℚ
  responseTime : Int
  throughput : ℚ
  errors : Nat
  minResponseTime : Int
  maxResponseTime : Int
  p90ResponseTime : Int
  p95ResponseTime : Int
  p99ResponseTime : Int
  successRate : ℚ
  avgConnectTime : Int
  avgLatency : Int
  bandwidth : ℚ
deriving DecidableEq, Repr

/-- Validity filter of `generateChartData`: record.timestamp && !isNaN &&
timestamp > 0 && elapsed defined && !isNaN(elapsed); the first conjunct is
JS truthiness, so a zero timestamp is excluded before the > 0 test ever
runs. -/
def chartValid (r : JTLRecord) : Bool :=
  truthyInt r.timestamp && decide (0 < r.timestamp.getD 0) && r.elapsed.isSome

/-- Record failure test !record.success: an unset success is falsy, so its
negation counts as an error. -/
def notSuccess (r : JTLRecord) : Bool := !(r.success.getD false)

/-- Bucket index of a record: floor((timestamp − minTimestamp) /
bucketDuration), the Math.floor of the source. -/
def bucketKey (minT : Int) (bucketDuration : ℚ) (r : JTLRecord) : Int :=
  ⌊((r.timestamp.getD 0 - minT : Int) : ℚ) / bucketDuration⌋

/-- Append a record to the bucket of the given key in an insertion-ordered
association list, creating the bucket at the end when absent — the
behaviour of the JS Map in the grouping loop. -/
def insertBucket (k : Int) (r : JTLRecord) :
    List (Int × List JTLRecord) → List (Int × List JTLRecord)
  | [] => [(k, [r])]
  | (k₀, l) :: rest =>
    if k₀ = k then (k₀, l ++ [r]) :: rest else (k₀, l) :: insertBucket k r rest

/-- Grouping loop of `generateChartData`: each valid record goes to the
bucket of its key; negative keys are skipped (the source also skips
non-finite keys, which cannot arise in rational arithmetic). -/
def groupBuckets (minT : Int) (bucketDuration : ℚ) (rs : List JTLRecord) :
    List (Int × List JTLRecord) :=
  rs.foldl (fun buckets r =>
    let k := bucketKey minT bucketDuration r
    if k < 0 then buckets else insertBucket k r buckets) []

/-- Single chart point emitted when bucketSize ≤ 0 or the valid-timestamp
span is not positive: all response-time statistics read the FIRST valid
record's elapsed, the success rate is the constant 100, only the error
count and throughput range over all valid records. -/
def singleBucket (bucketSize : ℚ) (validRecords : List JTLRecord) (minT : Int) :
    ChartDataPoint :=
  let first := validRecords.headD emptyRecord
  { timestamp := (minT : ℚ)
    responseTime := first.elapsed.getD 0
    throughput := (validRecords.length : ℚ)
    errors := validRecords.countP notSuccess
    minResponseTime := first.elapsed.getD 0
    maxResponseTime := first.elapsed.getD 0
    p90ResponseTime := first.elapsed.getD 0
    p95ResponseTime := first.elapsed.getD 0
    p99ResponseTime := first.elapsed.getD 0
    successRate := 100
    avgConnectTime := first.latency.getD 0
    avgLatency := first.latency.getD 0
    bandwidth := (first.bytes.getD 0 : ℚ) / bucketSize }

/-- Conversion of one filled bucket into a chart point, mirroring the
statistics block of the bucket loop. -/
def bucketToPoint (bucketSize : ℚ) (minT : Int) (bucketDuration : ℚ)
    (entry : Int × List JTLRecord) : ChartDataPoint :=
  let responses := entry.2.map (fun r => r.elapsed.getD 0)
  let errors := entry.2.countP notSuccess
  let connectTimes := entry.2.map (fun r => r.latency.getD 0)
  let latencies := entry.2.map (fun r => r.latency.getD 0)
  let bytes := entry.2.map (fun r => r.bytes.getD 0)
  let avgResponseTime : ℚ :=
    if responses.length > 0 then (sumInt responses : ℚ) / responses.length else 0
  let throughput : ℚ := (responses.length : ℚ) / bucketSize
  let sortedResponses := responses.mergeSort (fun a b => decide (a ≤ b))
  let successCount := responses.length - errors
  let successRate : ℚ :=
    if responses.length > 0 then (successCount : ℚ) / responses.length * 100 else 0
  let avgConnectTime : ℚ :=
    if connectTimes.length > 0 then (sumInt connectTimes : ℚ) / connectTimes.length else 0
  let avgLatency : ℚ :=
    if latencies.length > 0 then (sumInt latencies : ℚ) / latencies.length else 0
  let bandwidth : ℚ :=
    if bytes.length > 0 then (sumInt bytes : ℚ) / bucketSize / 1024 else 0
  { timestamp := (minT : ℚ) + (entry.1 : ℚ) * bucketDuration
    responseTime := jsRound avgResponseTime
    throughput := (jsRound (throughput * 10) : ℚ) / 10
    errors := errors
    minResponseTime := sortedResponses.getD 0 0
    maxResponseTime := sortedResponses.getD (sortedResponses.length - 1) 0
    p90ResponseTime := calculatePercentile sortedResponses 90
    p95ResponseTime := calculatePercentile sortedResponses 95
    p99ResponseTime := calculatePercentile sortedResponses 99
    successRate := round2 successRate
    avgConnectTime := jsRound avgConnectTime
    avgLatency := jsRound avgLatency
    bandwidth := round2 bandwidth }

/-- Records admitted to chart bucketing (the validRecords filter). -/
def validChartRecords (records : List JTLRecord) : List JTLRecord :=
  records.filter chartValid

/-- Minimum timestamp over the records admitted to bucketing. -/
def chartMinT (records : List JTLRecord) : Int :=
  listMin ((validChartRecords records).map (fun r => r.timestamp.getD 0))

/-- Maximum timestamp over the records admitted to bucketing. -/
def chartMaxT (records : List JTLRecord) : Int :=
  listMax ((validChartRecords records).map (fun r => r.timestamp.getD 0))

/-- Model of `JTLParser.generateChartData`.  Records failing `chartValid`
are excluded up front; with no valid record the result is empty; with a
non-positive bucket size or a non-positive timestamp span the single
degenerate bucket is emitted; otherwise valid records are grouped by
bucket key and each bucket is summarized.  The source's final sort by
rendered locale time string is presentation-environment dependent and is
not modelled; bucket contents and count are unaffected by it. -/
def generateChartData (bucketSize : ℚ) (records : List JTLRecord) :
    List ChartDataPoint :=
  if records.length = 0 then []
  else
    let validRecords := validChartRecords records
    if validRecords.length = 0 then []
    else
      let minT := chartMinT records
      let maxT := chartMaxT records
      if bucketSize ≤ 0 ∨ minT ≥ maxT then
        [singleBucket bucketSize validRecords minT]
      else
        let bucketDuration := bucketSize * 1000
        (groupBuckets minT bucketDuration validRecords).map
          (bucketToPoint bucketSize minT bucketDuration)

/-- Per-label accumulator of the transaction rollup. -/
structure TxStats where
  count : Nat
  avgTime : ℚ
  errorCount : Nat
deriving DecidableEq, Repr

/-- Output row of the transaction rollup. -/
structure TransactionSummary where
  label : String
  count : Nat
  avgResponseTime : Int
  errorRate : ℚ
  errorCount : Nat
deriving DecidableEq, Repr

/-- Per-record update of a label's stats: bump the count, recompute the
average incrementally with newAvg = (oldAvg × (n−1) + elapsed) / n where n
is the new count, bump the error count on failure. -/
def txUpdate (r : JTLRecord) (s : TxStats) : TxStats :=
  let count := s.count + 1
  { count := count
    avgTime := (s.avgTime * ((count : ℚ) - 1) + (r.elapsed.getD 0 : ℚ)) / (count : ℚ)
    errorCount := if notSuccess r then s.errorCount + 1 else s.errorCount }

/-- Update-or-insert into the insertion-ordered association list standing
for the breakdown Map: a fresh label starts from the zero stats the JS
code sets before updating. -/
def updateTx (key : String) (r : JTLRecord) :
    List (String × TxStats) → List (String × TxStats)
  | [] => [(key, txUpdate r { count := 0, avgTime := 0, errorCount := 0 })]
  | (k, s) :: rest =>
    if k = key then (k, txUpdate r s) :: rest else (k, s) :: updateTx key r rest

/-- Per-label stats map built by the grouping loop of
`getTransactionBreakdown` (keyed by record.label, always set after
parsing). -/
def txBreakdown (records : List JTLRecord) : List (String × TxStats) :=
  records.foldl (fun b r => updateTx (r.label.getD "") r b) []

/-- Model of `JTLParser.getTransactionBreakdown`: fold the records into the
per-label stats map, then render one summary row per label. -/
def getTransactionBreakdown (records : List JTLRecord) : List TransactionSummary :=
  (txBreakdown records).map (fun e =>
    { label := e.1
      count := e.2.count
      avgResponseTime := jsRound e.2.avgTime
      errorRate := (e.2.errorCount : ℚ) / (e.2.count : ℚ) * 100
      errorCount := e.2.errorCount })

/-! Helper lemmas about the list primitives used by the aggregation layer. -/

theorem foldl_min_le_init (s : List Int) (a : Int) : s.foldl min a ≤ a := by
  induction s generalizing a with
  | nil => simp
  | cons x xs ih => exact le_trans (ih (min a x)) (min_le_left a x)

theorem foldl_min_le_mem {s : List Int} {x : Int} (h : x ∈ s) (a : Int) :
    s.foldl min a ≤ x := by
  induction s generalizing a with
  | nil => cases h
  | cons y ys ih =>
    rcases List.mem_cons.mp h with rfl | hmem
    · exact le_trans (foldl_min_le_init ys (min a x)) (min_le_right a x)
    · exact ih hmem (min a y)

theorem init_le_foldl_max (s : List Int) (a : Int) : a ≤ s.foldl max a := by
  induction s generalizing a with
  | nil => simp
  | cons x xs ih => exact le_trans (le_max_left a x) (ih (max a x))

theorem mem_le_foldl_max {s : List Int} {x : Int} (h : x ∈ s) (a : Int) :
    x ≤ s.foldl max a := by
  induction s generalizing a with
  | nil => cases h
  | cons y ys ih =>
    rcases List.mem_cons.mp h with rfl | hmem
    · exact le_trans (le_max_right a x) (init_le_foldl_max ys (max a x))
    · exact ih hmem (max a y)

theorem listMin_le {l : List Int} {x : Int} (h : x ∈ l) : JTLParser.listMin l ≤ x := by
  cases l with
  | nil => cases h
  | cons a s =>
    rcases List.mem_cons.mp h with rfl | hmem
    · exact foldl_min_le_init s x
    · exact foldl_min_le_mem hmem a

theorem le_listMax {l : List Int} {x : Int} (h : x ∈ l) : x ≤ JTLParser.listMax l := by
  cases l with
  | nil => cases h
  | cons a s =>
    rcases List.mem_cons.mp h with rfl | hmem
    · exact init_le_foldl_max s x
    · exact mem_le_foldl_max hmem a

theorem sorted_getD_mono {l : List Int} (hs : List.Sorted (· ≤ ·) l) {i j : Nat}
    (hij : i ≤ j) (hj : j < l.length) : l.getD i 0 ≤ l.getD j 0 := by
  have hi : i < l.length := lt_of_le_of_lt hij hj
  rw [List.getD_eq_getElem l 0 hi, List.getD_eq_getElem l 0 hj]
  exact List.Sorted.rel_get_of_le hs (by exact hij)

theorem getD_mem {l : List Int} {i : Nat} (h : i < l.length) : l.getD i 0 ∈ l := by
  rw [List.getD_eq_getElem l 0 h]
  exact l.getElem_mem h

/-- Clamped nearest-rank index the specification describes:
ceil(p/100 × n) − 1 clamped into [0, n−1]. -/
def clampedIndex (n : Nat) (p : ℚ) : Int :=
  max 0 (min (⌈p / 100 * n⌉ - 1) ((n : Int) - 1))

theorem clampedIndex_nonneg (n : Nat) (p : ℚ) : 0 ≤ clampedIndex n p :=
  le_max_left 0 _

theorem clampedIndex_lt {n : Nat} (hn : 0 < n) (p : ℚ) :
    (clampedIndex n p).toNat < n := by
  have h₁ : clampedIndex n p ≤ (n : Int) - 1 := by
    apply max_le
    · omega
    · exact min_le_right _ _
  omega

theorem clampedIndex_mono (n : Nat) {p q : ℚ} (hpq : p ≤ q) :
    clampedIndex n p ≤ clampedIndex n q := by
  apply max_le_max le_rfl
  apply min_le_min _ le_rfl
  have : ⌈p / 100 * n⌉ ≤ ⌈q / 100 * n⌉ := by
    apply Int.ceil_le_ceil
    apply mul_le_mul_of_nonneg_right _ (by positivity)
    linarith
  omega

/-- Core of the percentile claim: on a non-empty array every branch of
`calculatePercentile` returns the element at the clamped nearest-rank
index. -/
theorem calculatePercentile_eq_clamped (arr : List Int) (p : ℚ) (hne : arr ≠ []) :
    calculatePercentile arr p = arr.getD (clampedIndex arr.length p).toNat 0 := by
  have hlen : 0 < arr.length := List.length_pos.mpr hne
  unfold calculatePercentile clampedIndex
  rw [if_neg (by omega)]
  by_cases hp0 : p ≤ 0
  · rw [if_pos hp0]
    have hceil : ⌈p / 100 * arr.length⌉ ≤ 0 := by
      rw [show (0 : Int) = ((0 : Nat) : Int) by rfl]
      apply Int.ceil_le.mpr
      push_cast
      apply mul_nonpos_of_nonpos_of_nonneg
      · linarith
      · positivity
    have : max 0 (min (⌈p / 100 * (arr.length : ℚ)⌉ - 1) ((arr.length : Int) - 1)) = 0 := by
      omega
    rw [this]
    rfl
  · rw [if_neg hp0]
    by_cases hp100 : p ≥ 100
    · rw [if_pos hp100]
      have hceil : (arr.length : Int) ≤ ⌈p / 100 * arr.length⌉ := by
        have h₁ : ((arr.length : Int) : ℚ) ≤ p / 100 * arr.length := by
          push_cast
          nth_rewrite 1 [show ((arr.length : ℚ)) = 1 * arr.length by ring]
          apply mul_le_mul_of_nonneg_right _ (by positivity)
          linarith
        calc (arr.length : Int) = ⌈((arr.length : Int) : ℚ)⌉ := by rw [Int.ceil_intCast]
          _ ≤ ⌈p / 100 * (arr.length : ℚ)⌉ := Int.ceil_le_ceil h₁
      have : max 0 (min (⌈p / 100 * (arr.length : ℚ)⌉ - 1) ((arr.length : Int) - 1))
          = (arr.length : Int) - 1 := by omega
      rw [this]
      congr 1
      omega
    · rw [if_neg hp100]

theorem clampedIndex_zero {n : Nat} (hn : 0 < n) : clampedIndex n 0 = 0 := by
  unfold clampedIndex
  have : ⌈(0 : ℚ) / 100 * n⌉ = 0 := by norm_num
  rw [this]
  omega

theorem clampedIndex_of_ge_100 {n : Nat} (hn : 0 < n) {p : ℚ} (hp : 100 ≤ p) :
    clampedIndex n p = (n : Int) - 1 := by
  unfold clampedIndex
  have hceil : (n : Int) ≤ ⌈p / 100 * n⌉ := by
    have h₁ : ((n : Int) : ℚ) ≤ p / 100 * n := by
      push_cast
      nth_rewrite 1 [show ((n : ℚ)) = 1 * n by ring]
      apply mul_le_mul_of_nonneg_right _ (by positivity)
      linarith
    calc (n : Int) = ⌈((n : Int) : ℚ)⌉ := by rw [Int.ceil_intCast]
      _ ≤ ⌈p / 100 * (n : ℚ)⌉ := Int.ceil_le_ceil h₁
  omega

/-- C3: on every non-empty sorted array the percentile function returns the
element at index ceil(p/100 × n) − 1 clamped to [0, n−1]; percentile 0 is
the minimum, percentile p for p ≥ 100 is the maximum, and the result is
monotone non-decreasing in p. -/
theorem C3_percentile_nearest_rank (arr : List Int) (p q : ℚ)
    (hne : arr ≠ []) (hs : List.Sorted (· ≤ ·) arr) (hpq : p ≤ q) :
    calculatePercentile arr p = arr.getD (clampedIndex arr.length p).toNat 0 ∧
    (calculatePercentile arr 0 ∈ arr ∧ ∀ x ∈ arr, calculatePercentile arr 0 ≤ x) ∧
    (100 ≤ p → calculatePercentile arr p ∈ arr ∧ ∀ x ∈ arr, x ≤ calculatePercentile arr p) ∧
    calculatePercentile arr p ≤ calculatePercentile arr q := by
  have hlen : 0 < arr.length := List.length_pos.mpr hne
  refine ⟨calculatePercentile_eq_clamped arr p hne, ⟨?_, ?_⟩, fun hp => ⟨?_, ?_⟩, ?_⟩
  · rw [calculatePercentile_eq_clamped arr 0 hne, clampedIndex_zero hlen]
    exact getD_mem hlen
  · intro x hx
    rw [calculatePercentile_eq_clamped arr 0 hne, clampedIndex_zero hlen]
    obtain ⟨⟨k, hk⟩, rfl⟩ := List.mem_iff_get.mp hx
    have h₁ : arr.get ⟨k, hk⟩ = arr.getD k 0 := by
      rw [List.getD_eq_getElem arr 0 hk, List.get_eq_getElem]
    rw [h₁]
    exact sorted_getD_mono hs (Nat.zero_le k) hk
  · rw [calculatePercentile_eq_clamped arr p hne, clampedIndex_of_ge_100 hlen hp]
    apply getD_mem
    omega
  · intro x hx
    rw [calculatePercentile_eq_clamped arr p hne, clampedIndex_of_ge_100 hlen hp]
    obtain ⟨⟨k, hk⟩, rfl⟩ := List.mem_iff_get.mp hx
    have hk' : ((arr.length : Int) - 1).toNat < arr.length := by omega
    have h₁ : arr.get ⟨k, hk⟩ = arr.getD k 0 := by
      rw [List.getD_eq_getElem arr 0 hk, List.get_eq_getElem]
    rw [h₁]
    exact sorted_getD_mono hs (show k ≤ ((arr.length : Int) - 1).toNat by omega) hk'
  · rw [calculatePercentile_eq_clamped arr p hne, calculatePercentile_eq_clamped arr q hne]
    apply sorted_getD_mono hs
    · exact Int.toNat_le_toNat (clampedIndex_mono arr.length hpq)
    · exact clampedIndex_lt hlen q

/-- Concrete instance of the percentile theorem: its hypotheses hold for
the sorted array [1, 2, 3] with p = 100 and q = 150. -/
theorem C3_percentile_nearest_rank_witness :
    calculatePercentile [1, 2, 3] 0 ∈ [(1 : Int), 2, 3] ∧
    calculatePercentile [1, 2, 3] 100 ≤ calculatePercentile [1, 2, 3] 150 :=
  ⟨(C3_percentile_nearest_rank [1, 2, 3] 100 150 (by decide) (by decide)
      (by norm_num)).2.1.1,
   (C3_percentile_nearest_rank [1, 2, 3] 100 150 (by decide) (by decide)
      (by norm_num)).2.2.2⟩

theorem validResponseTimes_eq_nil {rs : List JTLRecord}
    (hbad : ∀ r ∈ rs, ∀ e, r.elapsed = some e → e < 0) :
    validResponseTimes rs = [] := by
  apply List.filterMap_eq_nil_iff.mpr
  intro r hr
  cases he : r.elapsed with
  | none => simp
  | some e =>
    have := hbad r hr e he
    simp [he, this]

/-- C5: calculateMetrics returns the all-zero shape with errorRate 0 and
totalRequests 0 on an empty collection, and on a non-empty collection with
no usable elapsed value the all-zero shape with errorRate 100 and
totalRequests (and failedRequests) equal to the full record count; the two
shapes are distinct. -/
theorem C5_metrics_degenerate_shapes (rs : List JTLRecord) (hne : rs ≠ [])
    (hbad : ∀ r ∈ rs, ∀ e, r.elapsed = some e → e < 0) :
    calculateMetrics [] = zeroMetrics ∧
    zeroMetrics.errorRate = 0 ∧
    zeroMetrics.totalRequests = 0 ∧
    calculateMetrics rs =
      { zeroMetrics with
          errorRate := 100, totalRequests := rs.length, failedRequests := rs.length } ∧
    (calculateMetrics rs).errorRate = 100 ∧
    (calculateMetrics rs).totalRequests = rs.length ∧
    calculateMetrics rs ≠ calculateMetrics [] := by
  have h0 : calculateMetrics [] = zeroMetrics := by simp [calculateMetrics]
  have hlen : rs.length ≠ 0 := by
    simpa using fun h => hne (List.length_eq_zero.mp h)
  have hmain : calculateMetrics rs =
      { zeroMetrics with
          errorRate := 100, totalRequests := rs.length, failedRequests := rs.length } := by
    unfold calculateMetrics
    rw [if_neg hlen, validResponseTimes_eq_nil hbad]
    simp
  refine ⟨h0, rfl, rfl, hmain, ?_, ?_, ?_⟩
  · rw [hmain]
  · rw [hmain]
  · rw [hmain, h0]
    intro hcontra
    have h100 := congrArg PerformanceMetrics.errorRate hcontra
    simp [zeroMetrics] at h100

/-- Record with a negative elapsed value, instantiating the garbage-data
branch of the metrics claim. -/
def garbageRec : JTLRecord := { emptyRecord with elapsed := some (-5) }

/-- Concrete instance of the degenerate-metrics theorem at a one-record
collection whose only elapsed value is negative. -/
theorem C5_metrics_degenerate_shapes_witness :
    (calculateMetrics [garbageRec]).errorRate = 100 ∧
    (calculateMetrics [garbageRec]).totalRequests = 1 ∧
    calculateMetrics [garbageRec] ≠ calculateMetrics [] := by
  have h := C5_metrics_degenerate_shapes [garbageRec] (by simp)
    (by
      intro r hr e he
      simp at hr
      subst hr
      simp [garbageRec, emptyRecord] at he
      omega)
  exact ⟨h.2.2.2.2.1, h.2.2.2.2.2.1, h.2.2.2.2.2.2⟩

/-- C2 (amended): parseFile reports an explicit failure exactly when it
retained zero valid records — either the structural too-few-lines case or
a file whose data rows all fail validation; the error message is present
exactly in the failure case, and the structural case additionally returns
no records. -/
theorem C2_parse_failure_iff (now : Int) (content : String) :
    ((parseFile now content).success = false ↔
      (parseFile now content).validRecords = 0) ∧
    ((parseFile now content).error.isSome = true ↔
      (parseFile now content).success = false) ∧
    ((parseFile now content).records.length = (parseFile now content).validRecords) ∧
    ((fileLines content).length < 2 →
      (parseFile now content).success = false ∧
      (parseFile now content).records = [] ∧
      (parseFile now content).error =
        some "File must contain at least a header and one data row") := by
  unfold parseFile
  by_cases h : (fileLines content).length < 2
  · simp [h]
  · rw [if_neg h]
    refine ⟨?_, ?_, ?_, fun hlt => absurd hlt h⟩
    · simp
    · by_cases hz :
        ((fileLines content).drop 1).foldl
          (parseLineStep
            (parseRow ((fileLines content).getD 0 "")
              (detectDelimiter ((fileLines content).getD 0 "")))
            (detectDelimiter ((fileLines content).getD 0 "")) now)
          ([], 0) |>.1.length = 0 <;>
        simp [hz]
    · simp

/-- Counterexample to C2 as stated: a two-line input (at least 2 lines, so
the claim demands a success result) on which parseFile nevertheless returns
an explicit failure with a descriptive error, because no data row passes
validation. -/
theorem C2_counterexample :
    2 ≤ (fileLines "label\nfoo").length ∧
    (parseFile 0 "label\nfoo").success = false ∧
    (parseFile 0 "label\nfoo").error =
      some "No valid records found. Check file format and required fields." := by
  refine ⟨by decide, ?_, ?_⟩ <;> rfl

/-- Concrete instance of the amended parse-failure theorem on a one-line
input. -/
theorem C2_parse_failure_iff_witness :
    (parseFile 0 "x").success = false ∧ (parseFile 0 "x").records = [] :=
  ⟨((C2_parse_failure_iff 0 "x").2.2.2 (by decide)).1,
   ((C2_parse_failure_iff 0 "x").2.2.2 (by decide)).2.1⟩

theorem truthyInt_isSome {o : Option Int} (h : truthyInt o = true) :
    o.isSome = true := by
  cases o <;> simp_all [truthyInt]

theorem validateAndDefault_cond_of_some {now : Int} {n : Nat} {p rec : JTLRecord}
    (h : validateAndDefault now n p = some rec) :
    ((truthyInt p.timestamp || p.elapsed.isSome) &&
      (truthyStr p.label || (truthyStr p.responseCode || p.success.isSome))) = true := by
  by_contra hc
  simp only [validateAndDefault] at h
  rw [if_neg hc] at h
  exact Option.noConfusion h

theorem validateAndDefault_eq_none {now : Int} {n : Nat} {p : JTLRecord}
    (hc : ¬ ((truthyInt p.timestamp || p.elapsed.isSome) &&
      (truthyStr p.label || (truthyStr p.responseCode || p.success.isSome))) = true) :
    validateAndDefault now n p = none := by
  simp only [validateAndDefault]
  rw [if_neg hc]

theorem truthyStr_isSome {o : Option String} (h : truthyStr o = true) :
    o.isSome = true := by
  cases o <;> simp_all [truthyStr]

/-- C4: a data row is retained only if its mapped record has a parsed
timestamp or a parsed elapsed, together with a non-empty label, a
responseCode or an explicit success; in particular a row whose mapped
record has neither timestamp nor elapsed is rejected no matter what else
it carries. -/
theorem C4_retention_rule (headers : List String) (delimiter : Char) (now : Int)
    (n : Nat) (line : String) :
    (∀ rec, processRow headers delimiter now n line = some rec →
      ((buildRecord headers (parseRow (trimS line) delimiter)).timestamp.isSome = true ∨
       (buildRecord headers (parseRow (trimS line) delimiter)).elapsed.isSome = true) ∧
      (truthyStr (buildRecord headers (parseRow (trimS line) delimiter)).label = true ∨
       (buildRecord headers (parseRow (trimS line) delimiter)).responseCode.isSome = true ∨
       (buildRecord headers (parseRow (trimS line) delimiter)).success.isSome = true)) ∧
    ((buildRecord headers (parseRow (trimS line) delimiter)).timestamp = none →
     (buildRecord headers (parseRow (trimS line) delimiter)).elapsed = none →
     processRow headers delimiter now n line = none) := by
  constructor
  · intro rec h
    simp only [processRow] at h
    split_ifs at h
    have hc := validateAndDefault_cond_of_some h
    simp only [Bool.and_eq_true, Bool.or_eq_true] at hc
    obtain ⟨htime, hother⟩ := hc
    constructor
    · rcases htime with ht | he
      · exact Or.inl (truthyInt_isSome ht)
      · exact Or.inr he
    · rcases hother with hl | hrc | hsucc
      · exact Or.inl hl
      · exact Or.inr (Or.inl (truthyStr_isSome hrc))
      · exact Or.inr (Or.inr hsucc)
  · intro hts hel
    simp only [processRow]
    split_ifs
    · rfl
    · exact validateAndDefault_eq_none (by simp [hts, hel, truthyInt])
    · rfl

/-- Concrete instance of the retention rule: a row carrying label and
responseCode but no time data is rejected. -/
theorem C4_retention_rule_witness :
    processRow ["label", "responseCode"] ',' 0 0 "foo,200" = none :=
  (C4_retention_rule ["label", "responseCode"] ',' 0 0 "foo,200").2
    (by decide) (by decide)

/-- C8: numeric coercion fails soft with the preserved asymmetry — an
unparsable timestamp or elapsed cell leaves that field exactly as it was
(unset stays unset), while an unparsable bytes, sentBytes or latency cell
stores 0. -/
theorem C8_coercion_asymmetry (header value : String) (record : JTLRecord)
    (hns : parseIntJS value = none) :
    ((normalizeHeader header = "timestamp" ∨ normalizeHeader header = "timstamp" ∨
        normalizeHeader header = "time") →
      (mapFieldToRecord header value record).timestamp = record.timestamp) ∧
    ((normalizeHeader header = "elapsed" ∨ normalizeHeader header = "responsetime" ∨
        normalizeHeader header = "rt") →
      (mapFieldToRecord header value record).elapsed = record.elapsed) ∧
    ((normalizeHeader header = "bytes" ∨ normalizeHeader header = "size") →
      (mapFieldToRecord header value record).bytes = some 0) ∧
    ((normalizeHeader header = "sentbytes" ∨ normalizeHeader header = "requestsize") →
      (mapFieldToRecord header value record).sentBytes = some 0) ∧
    (normalizeHeader header = "latency" →
      (mapFieldToRecord header value record).latency = some 0) := by
  refine ⟨fun hh => ?_, fun hh => ?_, fun hh => ?_, fun hh => ?_, fun hh => ?_⟩
  · rcases hh with hh | hh | hh <;> simp [mapFieldToRecord, hh, hns]
  · rcases hh with hh | hh | hh <;> simp [mapFieldToRecord, hh, hns]
  · rcases hh with hh | hh <;> simp [mapFieldToRecord, hh, hns]
  · rcases hh with hh | hh <;> simp [mapFieldToRecord, hh, hns]
  · simp [mapFieldToRecord, hh, hns]

/-- Concrete instance of the coercion asymmetry at the unparsable cell
value "zz". -/
theorem C8_coercion_asymmetry_witness :
    (mapFieldToRecord "time" "zz" emptyRecord).timestamp = emptyRecord.timestamp ∧
    (mapFieldToRecord "bytes" "zz" emptyRecord).bytes = some 0 :=
  ⟨(C8_coercion_asymmetry "time" "zz" emptyRecord (by decide)).1
      (by decide),
   (C8_coercion_asymmetry "bytes" "zz" emptyRecord (by decide)).2.2.1
      (by decide)⟩

theorem parseRowAux_length_pos (delimiter : Char) :
    ∀ (cs : List Char) (prev : Option Char) (current : List Char) (inQuotes : Bool)
      (fields : List String),
      fields.length + 1 ≤ (parseRowAux delimiter cs prev current inQuotes fields).length := by
  intro cs
  induction cs with
  | nil => intro prev current inQuotes fields; simp [parseRowAux]
  | cons c rest ih =>
    intro prev current inQuotes fields
    simp only [parseRowAux]
    split_ifs
    · exact ih (some c) current (!inQuotes) fields
    · have := ih (some c) [] inQuotes (fields ++ [String.mk (trimList current)])
      simp at this
      omega
    · exact ih (some c) (current ++ [c]) inQuotes fields

theorem parseRow_length_pos (line : String) (delimiter : Char) :
    0 < (parseRow line delimiter).length := by
  have := parseRowAux_length_pos delimiter line.toList none [] false []
  simp only [parseRow, List.length_map]
  omega

/-- C9: delimiter detection tries tab, comma, semicolon and pipe in that
order and returns the candidate whose split yields the most fields; a later
candidate is returned only when it strictly beats every earlier one, so
ties go to the earlier candidate. -/
theorem C9_delimiter_detection (line : String) :
    detectDelimiter line ∈ delimiterCandidates ∧
    (∀ d ∈ delimiterCandidates,
      (parseRow line d).length ≤ (parseRow line (detectDelimiter line)).length) ∧
    (detectDelimiter line = ',' →
      (parseRow line '\t').length < (parseRow line ',').length) ∧
    (detectDelimiter line = ';' →
      (parseRow line '\t').length < (parseRow line ';').length ∧
      (parseRow line ',').length < (parseRow line ';').length) ∧
    (detectDelimiter line = '|' →
      (parseRow line '\t').length < (parseRow line '|').length ∧
      (parseRow line ',').length < (parseRow line '|').length ∧
      (parseRow line ';').length < (parseRow line '|').length) := by
  have ha := parseRow_length_pos line '\t'
  simp only [detectDelimiter, delimiterCandidates, List.foldl, detectStep]
  split_ifs <;> simp_all <;> omega

/-- Concrete instance of the delimiter-detection theorem: on the header
"a,b" the comma wins, so it strictly beat the earlier tab candidate. -/
theorem C9_delimiter_detection_witness :
    (parseRow "a,b" '\t').length < (parseRow "a,b" ',').length :=
  (C9_delimiter_detection "a,b").2.2.1 (by decide)

/-! Lookup machinery for the insertion-ordered association list behind the
transaction rollup Map. -/

/-- First stats entry stored under a key, if any. -/
def lookupTx (k : String) : List (String × TxStats) → Option TxStats
  | [] => none
  | e :: rest => if e.1 = k then some e.2 else lookupTx k rest

theorem lookupTx_updateTx_same (k : String) (r : JTLRecord) :
    ∀ b, lookupTx k (updateTx k r b) =
      some (txUpdate r ((lookupTx k b).getD ⟨0, 0, 0⟩)) := by
  intro b
  induction b with
  | nil => simp [updateTx, lookupTx]
  | cons e rest ih =>
    obtain ⟨k₀, s⟩ := e
    by_cases h : k₀ = k
    · subst h
      simp [updateTx, lookupTx]
    · simp [updateTx, lookupTx, h, ih]

theorem lookupTx_updateTx_other (k k₀ : String) (r : JTLRecord) (hne : k₀ ≠ k) :
    ∀ b, lookupTx k (updateTx k₀ r b) = lookupTx k b := by
  intro b
  induction b with
  | nil => simp [updateTx, lookupTx, hne]
  | cons e rest ih =>
    obtain ⟨k₁, s⟩ := e
    by_cases h : k₁ = k₀
    · subst h
      simp [updateTx, lookupTx, hne]
    · by_cases h₂ : k₁ = k
      · subst h₂
        simp [updateTx, lookupTx, h]
      · simp [updateTx, lookupTx, h, h₂, ih]

theorem updateTx_keys (k : String) (r : JTLRecord) :
    ∀ b, (updateTx k r b).map Prod.fst =
      if k ∈ b.map Prod.fst then b.map Prod.fst else b.map Prod.fst ++ [k] := by
  intro b
  induction b with
  | nil => simp [updateTx]
  | cons e rest ih =>
    obtain ⟨k₀, s⟩ := e
    by_cases h : k₀ = k
    · subst h
      simp [updateTx]
    · simp only [updateTx, if_neg h, List.map_cons, ih, List.mem_cons]
      by_cases hm : k ∈ List.map Prod.fst rest
      · simp [hm]
      · simp [hm, show ¬(k = k₀) from fun hkk => h hkk.symm]

theorem updateTx_keys_nodup {k : String} {r : JTLRecord}
    {b : List (String × TxStats)} (h : (b.map Prod.fst).Nodup) :
    ((updateTx k r b).map Prod.fst).Nodup := by
  rw [updateTx_keys]
  split_ifs with hmem
  · exact h
  · simp [List.nodup_append, h, hmem]

theorem txFold_keys_nodup :
    ∀ (rs : List JTLRecord) (b : List (String × TxStats)),
      (b.map Prod.fst).Nodup →
      ((rs.foldl (fun b r => updateTx (r.label.getD "") r b) b).map Prod.fst).Nodup := by
  intro rs
  induction rs with
  | nil => intro b h; simpa using h
  | cons r rest ih =>
    intro b h
    exact ih (updateTx (r.label.getD "") r b) (updateTx_keys_nodup h)

theorem lookupTx_of_mem :
    ∀ (b : List (String × TxStats)), (b.map Prod.fst).Nodup →
      ∀ p ∈ b, lookupTx p.1 b = some p.2 := by
  intro b
  induction b with
  | nil => intro _ p hp; cases hp
  | cons e rest ih =>
    intro hnd p hp
    simp only [List.map_cons, List.nodup_cons] at hnd
    rcases List.mem_cons.mp hp with rfl | hmem
    · simp [lookupTx]
    · have hne : ¬ e.1 = p.1 := by
        intro he
        apply hnd.1
        rw [he]
        exact List.mem_map_of_mem Prod.fst hmem
      simp only [lookupTx, if_neg hne]
      exact ih hnd.2 p hmem

/-- Count stored under an optional stats entry (0 when absent, matching the
zero record the JS code creates before the first update). -/
def countOfTx (o : Option TxStats) : Nat := (o.map TxStats.count).getD 0

/-- Elapsed mass stored under an optional stats entry: the running average
times the running count. -/
def sumOfTx (o : Option TxStats) : ℚ :=
  (o.map (fun s => s.avgTime * (s.count : ℚ))).getD 0

theorem sumInt_cons_aux (l : List Int) : ∀ a : Int, l.foldl (· + ·) a = a + l.foldl (· + ·) 0 := by
  induction l with
  | nil => intro a; simp
  | cons x xs ih =>
    intro a
    simp only [List.foldl_cons]
    rw [ih (a + x), ih (0 + x)]
    ring

theorem sumInt_cons (x : Int) (l : List Int) : sumInt (x :: l) = x + sumInt l := by
  simp only [sumInt, List.foldl_cons]
  rw [sumInt_cons_aux l (0 + x)]
  ring

/-- Characterization of the rollup fold, per key: folding a record batch on
top of any map adds the batch's matching count and matching elapsed mass to
that key's entry. -/
theorem txFold_char (k : String) :
    ∀ (rs : List JTLRecord) (b : List (String × TxStats)),
      countOfTx (lookupTx k (rs.foldl (fun b r => updateTx (r.label.getD "") r b) b)) =
        countOfTx (lookupTx k b) +
          (rs.filter (fun r => r.label.getD "" == k)).length ∧
      sumOfTx (lookupTx k (rs.foldl (fun b r => updateTx (r.label.getD "") r b) b)) =
        sumOfTx (lookupTx k b) +
          ((sumInt ((rs.filter (fun r => r.label.getD "" == k)).map
            (fun r => r.elapsed.getD 0)) : Int) : ℚ) := by
  intro rs
  induction rs with
  | nil => intro b; simp [sumInt]
  | cons r rest ih =>
    intro b
    simp only [List.foldl_cons, List.filter_cons]
    by_cases hk : r.label.getD "" = k
    · rw [hk]
      obtain ⟨ihc, ihs⟩ := ih (updateTx k r b)
      have hsame := lookupTx_updateTx_same k r b
      have hcount : countOfTx (lookupTx k (updateTx k r b)) = countOfTx (lookupTx k b) + 1 := by
        rw [hsame]
        cases hlb : lookupTx k b <;> simp [countOfTx, txUpdate, hlb]
      have hsum : sumOfTx (lookupTx k (updateTx k r b)) =
          sumOfTx (lookupTx k b) + ((r.elapsed.getD 0 : Int) : ℚ) := by
        rw [hsame]
        cases hlb : lookupTx k b with
        | none =>
          simp [sumOfTx, txUpdate]
        | some s =>
          simp only [sumOfTx, txUpdate, Option.getD_some, Option.map_some, Option.getD]
          have hcpos : ((s.count : ℚ) + 1) ≠ 0 := by positivity
          push_cast
          field_simp
      constructor
      · rw [ihc, hcount]
        simp [hk]
        omega
      · rw [ihs, hsum]
        simp only [hk, beq_self_eq_true, if_pos, List.map_cons, sumInt_cons]
        push_cast
        ring
    · have hbeq : (r.label.getD "" == k) = false := by
        simpa using hk
      rw [hbeq]
      obtain ⟨ihc, ihs⟩ := ih (updateTx (r.label.getD "") r b)
      rw [ihc, ihs, lookupTx_updateTx_other k (r.label.getD "") r hk]
      simp

theorem updateTx_count_pos (k : String) (r : JTLRecord) :
    ∀ b, (∀ p ∈ b, 0 < p.2.count) → ∀ p ∈ updateTx k r b, 0 < p.2.count := by
  intro b
  induction b with
  | nil =>
    intro _ p hp
    simp [updateTx] at hp
    subst hp
    simp [txUpdate]
  | cons e rest ih =>
    intro hb p hp
    obtain ⟨k₀, s⟩ := e
    by_cases h : k₀ = k
    · subst h
      simp [updateTx] at hp
      rcases hp with rfl | hp
      · simp [txUpdate]
      · exact hb p (List.mem_cons_of_mem _ hp)
    · simp [updateTx, h] at hp
      rcases hp with rfl | hp
      · exact hb (k₀, s) (List.mem_cons_self _ _)
      · exact ih (fun q hq => hb q (List.mem_cons_of_mem _ hq)) p hp

theorem txFold_count_pos :
    ∀ (rs : List JTLRecord) (b : List (String × TxStats)),
      (∀ p ∈ b, 0 < p.2.count) →
      ∀ p ∈ rs.foldl (fun b r => updateTx (r.label.getD "") r b) b, 0 < p.2.count := by
  intro rs
  induction rs with
  | nil => intro b hb; simpa using hb
  | cons r rest ih =>
    intro b hb
    exact ih (updateTx (r.label.getD "") r b)
      (updateTx_count_pos (r.label.getD "") r b hb)

/-- C6: for every record collection and each label entry of the rollup map,
the incrementally recomputed running average equals the exact sum of that
label's elapsed values divided by its count, and every emitted transaction
summary renders exactly those numbers. -/
theorem C6_transaction_rollup (records : List JTLRecord) :
    (∀ p ∈ txBreakdown records,
      p.2.count = (records.filter (fun r => r.label.getD "" == p.1)).length ∧
      0 < p.2.count ∧
      p.2.avgTime =
        ((sumInt ((records.filter (fun r => r.label.getD "" == p.1)).map
          (fun r => r.elapsed.getD 0)) : Int) : ℚ) / (p.2.count : ℚ)) ∧
    (∀ t ∈ getTransactionBreakdown records, ∃ p ∈ txBreakdown records,
      t.label = p.1 ∧ t.count = p.2.count ∧ t.avgResponseTime = jsRound p.2.avgTime) := by
  constructor
  · intro p hp
    have hnd : ((txBreakdown records).map Prod.fst).Nodup :=
      txFold_keys_nodup records [] (by simp)
    have hlk : lookupTx p.1 (txBreakdown records) = some p.2 :=
      lookupTx_of_mem _ hnd p hp
    obtain ⟨hc, hs⟩ := txFold_char p.1 records []
    rw [show records.foldl (fun b r => updateTx (r.label.getD "") r b) [] =
          txBreakdown records from rfl, hlk] at hc hs
    simp only [lookupTx, countOfTx, sumOfTx, Option.map_some, Option.getD] at hc hs
    have hpos : 0 < p.2.count := by
      have := txFold_count_pos records [] (by simp) p hp
      exact this
    refine ⟨by simpa using hc, hpos, ?_⟩
    have hcq : (p.2.count : ℚ) ≠ 0 := by positivity
    rw [eq_div_iff hcq]
    simpa using hs
  · intro t ht
    simp only [getTransactionBreakdown, List.mem_map] at ht
    obtain ⟨p, hp, rfl⟩ := ht
    exact ⟨p, hp, rfl, rfl, rfl⟩

/-- Successful Login sample used by the rollup witness. -/
def txRecA : JTLRecord :=
  { emptyRecord with
      timestamp := some 1000
      elapsed := some 100
      label := some "Login"
      responseCode := some "200"
      success := some true }

/-- Failed Login sample used by the rollup witness. -/
def txRecB : JTLRecord :=
  { emptyRecord with
      timestamp := some 2000
      elapsed := some 200
      label := some "Login"
      responseCode := some "500"
      success := some false }

/-- Concrete instance of the rollup theorem: two Login records with elapsed
100 and 200 produce a running average of exactly 150 = 300 / 2. -/
theorem C6_transaction_rollup_witness :
    ("Login", ({ count := 2, avgTime := 150, errorCount := 1 } : TxStats)) ∈
      txBreakdown [txRecA, txRecB] ∧
    (150 : ℚ) =
      ((sumInt (([txRecA, txRecB].filter
          (fun r => r.label.getD "" == "Login")).map
        (fun r => r.elapsed.getD 0)) : Int) : ℚ) / ((2 : Nat) : ℚ) := by
  have hmem :
      ("Login", ({ count := 2, avgTime := 150, errorCount := 1 } : TxStats)) ∈
        txBreakdown [txRecA, txRecB] := by
    simp [txBreakdown, updateTx, txUpdate, txRecA, txRecB, emptyRecord, notSuccess]
    norm_num
  have h := ((C6_transaction_rollup [txRecA, txRecB]).1 _ hmem).2.2
  exact ⟨hmem, h⟩

/-! Lookup machinery for the insertion-ordered association list behind the
chart bucketing Map. -/

/-- First bucket stored under a key, if any. -/
def lookupBucket (k : Int) : List (Int × List JTLRecord) → Option (List JTLRecord)
  | [] => none
  | e :: rest => if e.1 = k then some e.2 else lookupBucket k rest

theorem lookupBucket_insertBucket_same (k : Int) (r : JTLRecord) :
    ∀ b, lookupBucket k (insertBucket k r b) =
      some ((lookupBucket k b).getD [] ++ [r]) := by
  intro b
  induction b with
  | nil => simp [insertBucket, lookupBucket]
  | cons e rest ih =>
    obtain ⟨k₀, l⟩ := e
    by_cases h : k₀ = k
    · subst h
      simp [insertBucket, lookupBucket]
    · simp [insertBucket, lookupBucket, h, ih]

theorem lookupBucket_insertBucket_other (k k₀ : Int) (r : JTLRecord) (hne : k₀ ≠ k) :
    ∀ b, lookupBucket k (insertBucket k₀ r b) = lookupBucket k b := by
  intro b
  induction b with
  | nil => simp [insertBucket, lookupBucket, hne]
  | cons e rest ih =>
    obtain ⟨k₁, l⟩ := e
    by_cases h : k₁ = k₀
    · subst h
      simp [insertBucket, lookupBucket, hne]
    · by_cases h₂ : k₁ = k
      · subst h₂
        simp [insertBucket, lookupBucket, h]
      · simp [insertBucket, lookupBucket, h, h₂, ih]

theorem insertBucket_keys (k : Int) (r : JTLRecord) :
    ∀ b, (insertBucket k r b).map Prod.fst =
      if k ∈ b.map Prod.fst then b.map Prod.fst else b.map Prod.fst ++ [k] := by
  intro b
  induction b with
  | nil => simp [insertBucket]
  | cons e rest ih =>
    obtain ⟨k₀, l⟩ := e
    by_cases h : k₀ = k
    · subst h
      simp [insertBucket]
    · simp only [insertBucket, if_neg h, List.map_cons, ih, List.mem_cons]
      by_cases hm : k ∈ List.map Prod.fst rest
      · simp [hm]
      · simp [hm, show ¬(k = k₀) from fun hkk => h hkk.symm]

theorem insertBucket_keys_nodup {k : Int} {r : JTLRecord}
    {b : List (Int × List JTLRecord)} (h : (b.map Prod.fst).Nodup) :
    ((insertBucket k r b).map Prod.fst).Nodup := by
  rw [insertBucket_keys]
  split_ifs with hmem
  · exact h
  · simp [List.nodup_append, h, hmem]

theorem groupBuckets_keys_nodup (minT : Int) (bucketDuration : ℚ) :
    ∀ (rs : List JTLRecord) (b : List (Int × List JTLRecord)),
      (b.map Prod.fst).Nodup →
      (((rs.foldl (fun buckets r =>
          let k := bucketKey minT bucketDuration r
          if k < 0 then buckets else insertBucket k r buckets) b)).map Prod.fst).Nodup := by
  intro rs
  induction rs with
  | nil => intro b h; simpa using h
  | cons r rest ih =>
    intro b h
    simp only [List.foldl_cons]
    by_cases hk : bucketKey minT bucketDuration r < 0
    · simp only [if_pos hk]
      exact ih b h
    · simp only [if_neg hk]
      exact ih _ (insertBucket_keys_nodup h)

theorem lookupBucket_of_mem :
    ∀ (b : List (Int × List JTLRecord)), (b.map Prod.fst).Nodup →
      ∀ p ∈ b, lookupBucket p.1 b = some p.2 := by
  intro b
  induction b with
  | nil => intro _ p hp; cases hp
  | cons e rest ih =>
    intro hnd p hp
    simp only [List.map_cons, List.nodup_cons] at hnd
    rcases List.mem_cons.mp hp with rfl | hmem
    · simp [lookupBucket]
    · have hne : ¬ e.1 = p.1 := by
        intro he
        apply hnd.1
        rw [he]
        exact List.mem_map_of_mem Prod.fst hmem
      simp only [lookupBucket, if_neg hne]
      exact ih hnd.2 p hmem

theorem mem_of_lookupBucket :
    ∀ (b : List (Int × List JTLRecord)) (k : Int) (l : List JTLRecord),
      lookupBucket k b = some l → (k, l) ∈ b := by
  intro b
  induction b with
  | nil => intro k l h; simp [lookupBucket] at h
  | cons e rest ih =>
    intro k l h
    simp only [lookupBucket] at h
    split_ifs at h with he
    · obtain ⟨k₀, l₀⟩ := e
      simp at he h
      subst he
      subst h
      exact List.mem_cons_self _ _
    · exact List.mem_cons_of_mem _ (ih k l h)

theorem insertBucket_fst (k : Int) (r : JTLRecord) (b : List (Int × List JTLRecord))
    (p : Int × List JTLRecord) (hp : p ∈ insertBucket k r b) :
    p.1 ∈ b.map Prod.fst ∨ p.1 = k := by
  have h : p.1 ∈ (insertBucket k r b).map Prod.fst := List.mem_map_of_mem Prod.fst hp
  rw [insertBucket_keys] at h
  split_ifs at h with hmem
  · exact Or.inl h
  · rcases List.mem_append.mp h with h₁ | h₁
    · exact Or.inl h₁
    · simp at h₁
      exact Or.inr h₁

theorem groupBuckets_key_nonneg (minT : Int) (bucketDuration : ℚ) :
    ∀ (rs : List JTLRecord) (b : List (Int × List JTLRecord)),
      (∀ p ∈ b, 0 ≤ p.1) →
      ∀ p ∈ rs.foldl (fun buckets r =>
          let k := bucketKey minT bucketDuration r
          if k < 0 then buckets else insertBucket k r buckets) b, 0 ≤ p.1 := by
  intro rs
  induction rs with
  | nil => intro b hb; simpa using hb
  | cons r rest ih =>
    intro b hb
    simp only [List.foldl_cons]
    by_cases hk : bucketKey minT bucketDuration r < 0
    · simp only [if_pos hk]
      exact ih b hb
    · simp only [if_neg hk]
      apply ih
      intro p hp
      rcases insertBucket_fst _ _ _ p hp with hm | hm
      · obtain ⟨q, hq, hq1⟩ := List.mem_map.mp hm
        exact hq1 ▸ hb q hq
      · omega

/-- Characterization of the grouping fold, per non-negative key: folding a
record batch on top of any bucket map appends exactly the records whose
bucket key is that key. -/
theorem groupFold_char (minT : Int) (bucketDuration : ℚ) (k : Int) (hk : 0 ≤ k) :
    ∀ (rs : List JTLRecord) (b : List (Int × List JTLRecord)),
      (lookupBucket k (rs.foldl (fun buckets r =>
          let key := bucketKey minT bucketDuration r
          if key < 0 then buckets else insertBucket key r buckets) b)).getD [] =
        (lookupBucket k b).getD [] ++
          rs.filter (fun r => bucketKey minT bucketDuration r == k) := by
  intro rs
  induction rs with
  | nil => intro b; simp
  | cons r rest ih =>
    intro b
    simp only [List.foldl_cons, List.filter_cons]
    by_cases hkey : bucketKey minT bucketDuration r = k
    · have hneg : ¬ bucketKey minT bucketDuration r < 0 := by omega
      rw [if_neg hneg, hkey]
      rw [ih (insertBucket k r b), lookupBucket_insertBucket_same k r b]
      simp
    · have hbeq : (bucketKey minT bucketDuration r == k) = false := by
        simpa using hkey
      rw [hbeq]
      by_cases hneg : bucketKey minT bucketDuration r < 0
      · rw [if_pos hneg, ih b]
        simp
      · rw [if_neg hneg,
          ih (insertBucket (bucketKey minT bucketDuration r) r b),
          lookupBucket_insertBucket_other k (bucketKey minT bucketDuration r) r hkey]
        simp

theorem groupBuckets_mem_char (minT : Int) (bucketDuration : ℚ)
    (rs : List JTLRecord) :
    ∀ p ∈ groupBuckets minT bucketDuration rs,
      p.2 = rs.filter (fun r => bucketKey minT bucketDuration r == p.1) := by
  intro p hp
  have hnd : ((groupBuckets minT bucketDuration rs).map Prod.fst).Nodup :=
    groupBuckets_keys_nodup minT bucketDuration rs [] (by simp)
  have hkey : 0 ≤ p.1 :=
    groupBuckets_key_nonneg minT bucketDuration rs [] (by simp) p hp
  have hl := lookupBucket_of_mem _ hnd p hp
  have hc := groupFold_char minT bucketDuration p.1 hkey rs []
  rw [show rs.foldl (fun buckets r =>
      let key := bucketKey minT bucketDuration r
      if key < 0 then buckets else insertBucket key r buckets) [] =
      groupBuckets minT bucketDuration rs from rfl, hl] at hc
  simpa using hc

/-- C7: with a positive bucket size and a positive valid-timestamp span,
bucketing partitions the valid records — every record passing the chart
filter lands in exactly one bucket, the bucket keyed by
floor((timestamp − minTimestamp) / bucketDuration), and that key is
non-negative; records failing the filter appear in no bucket (they are
only excluded from bucketing, the record collection itself is read-only
here); the emitted chart data is exactly one point per bucket. -/
theorem C7_bucket_partition (bucketSize : ℚ) (records : List JTLRecord)
    (hpos : 0 < bucketSize) (hspan : chartMinT records < chartMaxT records) :
    (∀ r ∈ records, chartValid r = true →
      0 ≤ bucketKey (chartMinT records) (bucketSize * 1000) r ∧
      (∃! p, p ∈ groupBuckets (chartMinT records) (bucketSize * 1000)
          (validChartRecords records) ∧ r ∈ p.2) ∧
      (∀ p ∈ groupBuckets (chartMinT records) (bucketSize * 1000)
          (validChartRecords records), r ∈ p.2 →
        p.1 = bucketKey (chartMinT records) (bucketSize * 1000) r)) ∧
    (∀ r : JTLRecord, chartValid r = false →
      ∀ p ∈ groupBuckets (chartMinT records) (bucketSize * 1000)
          (validChartRecords records), r ∉ p.2) ∧
    generateChartData bucketSize records =
      (groupBuckets (chartMinT records) (bucketSize * 1000)
        (validChartRecords records)).map
        (bucketToPoint bucketSize (chartMinT records) (bucketSize * 1000)) := by
  have hmemchar := groupBuckets_mem_char (chartMinT records) (bucketSize * 1000)
    (validChartRecords records)
  have hnd : ((groupBuckets (chartMinT records) (bucketSize * 1000)
      (validChartRecords records)).map Prod.fst).Nodup :=
    groupBuckets_keys_nodup _ _ _ [] (by simp)
  refine ⟨?_, ?_, ?_⟩
  · intro r hr hv
    have hrvr : r ∈ validChartRecords records :=
      List.mem_filter.mpr ⟨hr, hv⟩
    have hmin : chartMinT records ≤ r.timestamp.getD 0 :=
      listMin_le (List.mem_map_of_mem (fun r => r.timestamp.getD 0) hrvr)
    have hkeynn : 0 ≤ bucketKey (chartMinT records) (bucketSize * 1000) r := by
      apply Int.floor_nonneg.mpr
      apply div_nonneg
      · have h₀ : (0 : Int) ≤ r.timestamp.getD 0 - chartMinT records := by omega
        have h₀q : (0 : ℚ) ≤ ((r.timestamp.getD 0 - chartMinT records : Int) : ℚ) := by
          exact_mod_cast h₀
        push_cast at h₀q ⊢
        linarith
      · positivity
    refine ⟨hkeynn, ?_, ?_⟩
    · have hfl : r ∈ (validChartRecords records).filter
          (fun r' => bucketKey (chartMinT records) (bucketSize * 1000) r' ==
            bucketKey (chartMinT records) (bucketSize * 1000) r) :=
        List.mem_filter.mpr ⟨hrvr, by simp⟩
      have hc := groupFold_char (chartMinT records) (bucketSize * 1000)
        (bucketKey (chartMinT records) (bucketSize * 1000) r) hkeynn
        (validChartRecords records) []
      rw [show (validChartRecords records).foldl (fun buckets r =>
          let key := bucketKey (chartMinT records) (bucketSize * 1000) r
          if key < 0 then buckets else insertBucket key r buckets) [] =
          groupBuckets (chartMinT records) (bucketSize * 1000)
            (validChartRecords records) from rfl] at hc
      simp only [lookupBucket, Option.getD_none, List.nil_append] at hc
      cases hlk : lookupBucket (bucketKey (chartMinT records) (bucketSize * 1000) r)
          (groupBuckets (chartMinT records) (bucketSize * 1000)
            (validChartRecords records)) with
      | none =>
        rw [hlk] at hc
        simp only [Option.getD_none] at hc
        rw [← hc] at hfl
        cases hfl
      | some l =>
        rw [hlk] at hc
        simp only [Option.getD_some] at hc
        have hmem := mem_of_lookupBucket _ _ _ hlk
        refine ⟨(bucketKey (chartMinT records) (bucketSize * 1000) r, l),
          ⟨hmem, by show r ∈ l; rw [hc]; exact hfl⟩, ?_⟩
        rintro ⟨k₀, l₀⟩ ⟨hp₀, hr₀⟩
        have h₂ : l₀ = (validChartRecords records).filter
            (fun r' => bucketKey (chartMinT records) (bucketSize * 1000) r' == k₀) :=
          hmemchar (k₀, l₀) hp₀
        have hr₀l : r ∈ l₀ := hr₀
        have hk₀ : bucketKey (chartMinT records) (bucketSize * 1000) r = k₀ := by
          have hx := List.mem_filter.mp (h₂ ▸ hr₀l)
          simpa using hx.2
        subst hk₀
        have hl₀ : l₀ = l := by rw [h₂, hc]
        rw [hl₀]
    · intro p hp hrp
      have h₂ : p.2 = (validChartRecords records).filter
          (fun r' => bucketKey (chartMinT records) (bucketSize * 1000) r' == p.1) :=
        hmemchar p hp
      have hx := List.mem_filter.mp (h₂ ▸ hrp)
      exact (show bucketKey (chartMinT records) (bucketSize * 1000) r = p.1 by
        simpa using hx.2).symm
  · intro r hv p hp hmem
    have h₂ := hmemchar p hp
    have hrf := h₂ ▸ hmem
    have hrvr := (List.mem_filter.mp hrf).1
    have := (List.mem_filter.mp hrvr).2
    rw [hv] at this
    cases this
  · have hvne : validChartRecords records ≠ [] := by
      intro h0
      rw [chartMinT, chartMaxT, h0] at hspan
      simp [listMin, listMax] at hspan
    have hrne : ¬ records.length = 0 := by
      intro h0
      apply hvne
      rw [List.length_eq_zero.mp h0]
      rfl
    have hvlen : ¬ (validChartRecords records).length = 0 := by
      simpa [List.length_eq_zero] using hvne
    have hcond : ¬ (bucketSize ≤ 0 ∨ chartMinT records ≥ chartMaxT records) := by
      push_neg
      exact ⟨hpos, hspan⟩
    simp only [generateChartData]
    rw [if_neg hrne, if_neg hvlen, if_neg hcond]

/-- Bucketing sample: two valid records 39 seconds apart, landing in bucket
0 and bucket 1 at the default 30-second bucket size. -/
def bRecA : JTLRecord :=
  { emptyRecord with
      timestamp := some 1000
      elapsed := some 10
      label := some "A"
      responseCode := some "200"
      success := some true }

/-- Bucketing sample: the later of the two records. -/
def bRecB : JTLRecord :=
  { emptyRecord with
      timestamp := some 40000
      elapsed := some 20
      label := some "B"
      responseCode := some "200"
      success := some true }

/-- Concrete instance of the bucket-partition theorem on two records 39
seconds apart with the default 30-second buckets. -/
theorem C7_bucket_partition_witness :
    0 ≤ bucketKey (chartMinT [bRecA, bRecB]) (30 * 1000) bRecA ∧
    (∀ p ∈ groupBuckets (chartMinT [bRecA, bRecB]) (30 * 1000)
        (validChartRecords [bRecA, bRecB]), emptyRecord ∉ p.2) :=
  ⟨((C7_bucket_partition 30 [bRecA, bRecB] (by norm_num) (by decide)).1
      bRecA (by decide) (by decide)).1,
   (C7_bucket_partition 30 [bRecA, bRecB] (by norm_num) (by decide)).2.1
      emptyRecord (by decide)⟩

/-- C1 (amended): in the degenerate branch (non-positive bucket size or
non-positive valid-timestamp span) generateChartData emits exactly one
bucket, whose throughput and error count do range over all valid records,
but whose average/min/max/p90/p95/p99 response times all equal the FIRST
valid record's elapsed and whose success rate is the constant 100. -/
theorem C1_single_bucket (bucketSize : ℚ) (records : List JTLRecord)
    (hvne : validChartRecords records ≠ [])
    (hdeg : bucketSize ≤ 0 ∨ chartMinT records ≥ chartMaxT records) :
    (generateChartData bucketSize records).length = 1 ∧
    ∀ pt ∈ generateChartData bucketSize records,
      pt.throughput = ((validChartRecords records).length : ℚ) ∧
      pt.errors = (validChartRecords records).countP notSuccess ∧
      pt.responseTime =
        ((validChartRecords records).headD emptyRecord).elapsed.getD 0 ∧
      pt.minResponseTime =
        ((validChartRecords records).headD emptyRecord).elapsed.getD 0 ∧
      pt.maxResponseTime =
        ((validChartRecords records).headD emptyRecord).elapsed.getD 0 ∧
      pt.p90ResponseTime =
        ((validChartRecords records).headD emptyRecord).elapsed.getD 0 ∧
      pt.p95ResponseTime =
        ((validChartRecords records).headD emptyRecord).elapsed.getD 0 ∧
      pt.p99ResponseTime =
        ((validChartRecords records).headD emptyRecord).elapsed.getD 0 ∧
      pt.successRate = 100 := by
  have hvlen : ¬ (validChartRecords records).length = 0 := by
    simpa [List.length_eq_zero] using hvne
  have hrne : ¬ records.length = 0 := by
    intro h₀
    apply hvne
    rw [List.length_eq_zero.mp h₀]
    rfl
  have hgen : generateChartData bucketSize records =
      [singleBucket bucketSize (validChartRecords records) (chartMinT records)] := by
    simp only [generateChartData]
    rw [if_neg hrne, if_neg hvlen, if_pos hdeg]
  rw [hgen]
  refine ⟨rfl, ?_⟩
  intro pt hpt
  rw [List.mem_singleton] at hpt
  subst hpt
  exact ⟨rfl, rfl, rfl, rfl, rfl, rfl, rfl, rfl, rfl⟩

/-- Successful sample sharing its timestamp with `cRecB`. -/
def cRecA : JTLRecord :=
  { emptyRecord with
      timestamp := some 1000
      elapsed := some 100
      label := some "A"
      responseCode := some "200"
      success := some true }

/-- Failed sample with a larger elapsed, sharing its timestamp with
`cRecA`. -/
def cRecB : JTLRecord :=
  { emptyRecord with
      timestamp := some 1000
      elapsed := some 300
      label := some "B"
      responseCode := some "500"
      success := some false }

/-- Counterexample to C1 as stated: two valid records share one timestamp
(elapsed 100 and 300, the second failed), so the degenerate branch fires;
the single emitted bucket reports maxResponseTime 100 — below the valid
record elapsed 300 — and successRate 100 despite one of the two valid
records having failed, so its statistics do not summarize all valid
records. -/
theorem C1_counterexample :
    (generateChartData 30 [cRecA, cRecB]).map
      (fun pt => (pt.maxResponseTime, pt.errors)) = [((100 : Int), 1)] ∧
    (generateChartData 30 [cRecA, cRecB]).map
      (fun pt => pt.successRate) = [(100 : ℚ)] ∧
    cRecB ∈ validChartRecords [cRecA, cRecB] ∧
    cRecB.elapsed = some 300 ∧
    notSuccess cRecB = true ∧
    (100 : Int) < 300 := by
  have hgen : generateChartData 30 [cRecA, cRecB] =
      [singleBucket 30 (validChartRecords [cRecA, cRecB])
        (chartMinT [cRecA, cRecB])] := by
    simp only [generateChartData]
    rw [if_neg (by decide), if_neg (by decide),
      if_pos (Or.inr (by decide))]
  rw [hgen]
  refine ⟨?_, ?_, by decide, by decide, by decide, by decide⟩
  · simp [singleBucket, validChartRecords, chartValid, cRecA, cRecB,
      emptyRecord, notSuccess, truthyInt]
  · simp [singleBucket]

/-- Concrete instance of the amended single-bucket theorem on the same
degenerate input. -/
theorem C1_single_bucket_witness :
    (generateChartData 30 [cRecA, cRecB]).length = 1 :=
  (C1_single_bucket 30 [cRecA, cRecB] (by decide) (Or.inr (by decide))).1

theorem fillDefaults_timestamp (record : JTLRecord) :
    (fillDefaults record).timestamp = record.timestamp := by
  simp only [fillDefaults]
  split_ifs <;> rfl

theorem fillTime_timestamp (now : Int) (n : Nat) (record : JTLRecord) :
    (fillTime now n record).timestamp =
      if (!truthyInt record.timestamp && record.elapsed.isSome) = true then
        some (now - (n : Int) * 1000)
      else record.timestamp := by
  simp only [fillTime]
  split_ifs <;> rfl

theorem validateAndDefault_timestamp {now : Int} {n : Nat} {p rec : JTLRecord}
    (h : validateAndDefault now n p = some rec) :
    rec.timestamp =
      if (!truthyInt p.timestamp && p.elapsed.isSome) = true then
        some (now - (n : Int) * 1000)
      else p.timestamp := by
  simp only [validateAndDefault] at h
  split at h
  · injection h with h
    subst h
    rw [fillDefaults_timestamp, fillTime_timestamp]
  · exact Option.noConfusion h

/-- C10: a record whose timestamp cell parsed to exactly 0 behaves as if it
had no timestamp: with no elapsed the row is rejected outright (whatever
label or responseCode it carries), with an elapsed present any accepted
record carries the synthetic timestamp now − n × 1000 in place of the 0,
and a stored record with timestamp 0 fails the chart filter and so appears
in no bucket. -/
theorem C10_zero_timestamp (now : Int) (n : Nat) (p r : JTLRecord)
    (hp : p.timestamp = some 0) (hr : r.timestamp = some 0) :
    (p.elapsed = none → validateAndDefault now n p = none) ∧
    (∀ rec, validateAndDefault now n p = some rec →
      rec.timestamp = some (now - (n : Int) * 1000)) ∧
    chartValid r = false ∧
    (∀ (minT : Int) (dur : ℚ) (rs : List JTLRecord),
      ∀ b ∈ groupBuckets minT dur (rs.filter chartValid), r ∉ b.2) := by
  have hcv : chartValid r = false := by
    simp [chartValid, hr, truthyInt]
  refine ⟨?_, ?_, hcv, ?_⟩
  · intro hel
    exact validateAndDefault_eq_none (by simp [hp, hel, truthyInt])
  · intro rec h
    have hc := validateAndDefault_cond_of_some h
    simp only [hp, truthyInt] at hc
    simp only [Bool.and_eq_true, Bool.or_eq_true] at hc
    have hes : p.elapsed.isSome = true := by
      rcases hc.1 with h₁ | h₁
      · simp at h₁
      · exact h₁
    rw [validateAndDefault_timestamp h]
    rw [if_pos (by simp [hp, truthyInt, hes])]
  · intro minT dur rs b hb hmem
    have h₂ : b.2 = (rs.filter chartValid).filter
        (fun r' => bucketKey minT dur r' == b.1) :=
      groupBuckets_mem_char minT dur (rs.filter chartValid) b hb
    have hrf := (List.mem_filter.mp (h₂ ▸ hmem)).1
    have := (List.mem_filter.mp hrf).2
    rw [hcv] at this
    cases this

/-- Row carrying label and responseCode whose timestamp parsed to 0, with no
elapsed. -/
def zeroTsRec : JTLRecord :=
  { emptyRecord with
      timestamp := some 0
      label := some "L"
      responseCode := some "200" }

/-- Concrete instance of the zero-timestamp theorem: the record with
timestamp 0, label and responseCode but no elapsed is rejected and fails
the chart filter. -/
theorem C10_zero_timestamp_witness :
    validateAndDefault 0 0 zeroTsRec = none ∧ chartValid zeroTsRec = false :=
  ⟨(C10_zero_timestamp 0 0 zeroTsRec zeroTsRec rfl rfl).1 rfl,
   (C10_zero_timestamp 0 0 zeroTsRec zeroTsRec rfl rfl).2.2.1⟩

end JTLParser
